import Mathlib

/-!
Verification of the Dutch_Law_MCP scraping/normalization pipeline and
keyword classifier against its specification.

The development shallowly embeds the relevant Python source:
  * `src/backend/src/models/wetten_parser.py` (class `WettenParser`)
  * `src/src/models/law_model.py` (dataclass `MCPLaw`, `__post_init__`)
  * `src/src/test_legal_assistant.py` (class `LegalAssistant`)

External effects are embedded as explicit parameters:
  * the `requests` library is a function giving, per URL / query
    parameters / attempt index, the outcome of one HTTP attempt;
  * `BeautifulSoup` (the bs4 library, an external dependency) is a
    function `String → Node` from markup to an element tree; element
    trees are modelled by the inductive `Node` (tag, class list,
    optional `href` attribute, text content, children), and
    `find` / `find_all` are depth-first pre-order searches over
    descendants, as in bs4;
  * `time.sleep(1)` is counted (field `sleeps` of `RequestOutcome`).

Python dicts with a fixed key set are structures; dict values that may
be absent are `Option`; Python sets of category names are
duplicate-free lists compared through `List.toFinset`; Python string
operations map to executable char-list operations (`in` on strings is
`containsSubstr`, `.strip()` is `pyStrip`, `.lower()` is `pyLower` —
all inputs involved are ASCII).  The regular-expression searches of the
source are hand-compiled scanners over `List Char`, one per pattern,
implementing Python `re.search` semantics (leftmost match, greedy
with the only backtracking point being the `\d{1,2}` day group).
-/

namespace DutchLawMCP

/-! ## The bs4 element-tree model -/

/-- An element of a parsed HTML tree: tag name, CSS class list,
optional `href` attribute, text content (the bs4 `.text` /
`get_text()` of the element, kept abstract), and child elements. -/
inductive Node where
  | mk (tag : String) (classes : List String) (href : Option String)
       (text : String) (children : List Node)

def Node.tag : Node → String
  | .mk t _ _ _ _ => t

def Node.classes : Node → List String
  | .mk _ c _ _ _ => c

def Node.href : Node → Option String
  | .mk _ _ h _ _ => h

def Node.text : Node → String
  | .mk _ _ _ t _ => t

def Node.children : Node → List Node
  | .mk _ _ _ _ cs => cs

mutual

/-- All nodes of a subtree (the node itself included) satisfying `p`,
in document (depth-first pre-order) order. -/
def Node.hits (p : Node → Bool) : Node → List Node
  | .mk t c h x cs =>
      (if p (.mk t c h x cs) then [Node.mk t c h x cs] else []) ++ Node.hitsList p cs

def Node.hitsList (p : Node → Bool) : List Node → List Node
  | [] => []
  | n :: rest => Node.hits p n ++ Node.hitsList p rest

end

/-- bs4 `element.find_all(...)`: all descendants (self excluded)
matching the filter, in document order. -/
def Node.findAll (n : Node) (p : Node → Bool) : List Node :=
  Node.hitsList p n.children

/-- bs4 `element.find(...)`: the first descendant matching the
filter, if any. -/
def Node.find (n : Node) (p : Node → Bool) : Option Node :=
  (n.findAll p).head?

/-- Filter for `find(tag, class_=cls)`: tag equality and membership of
`cls` in the element's class list. -/
def byTagClass (tag cls : String) (n : Node) : Bool :=
  n.tag == tag && n.classes.contains cls

/-- Python `str.lower()`: lowercase every character.  (All strings
involved are ASCII, where this agrees with Python's Unicode-aware
lowercasing.) -/
def pyLower (s : String) : String :=
  String.mk (s.data.map Char.toLower)

/-- Python `str.strip()`: drop leading and trailing whitespace. -/
def pyStrip (s : String) : String :=
  String.mk (((s.data.dropWhile Char.isWhitespace).reverse.dropWhile
    Char.isWhitespace).reverse)

/-- `needle` occurs as a prefix-at-some-position of `hay`. -/
def infixOf (needle : List Char) : List Char → Bool
  | [] => needle.isEmpty
  | c :: rest => needle.isPrefixOf (c :: rest) || infixOf needle rest

/-- Python `needle in hay` on strings: contiguous-substring test. -/
def containsSubstr (needle hay : String) : Bool :=
  infixOf needle.data hay.data

/-- Python `str.startswith`. -/
def pyStartsWith (s pre : String) : Bool :=
  pre.data.isPrefixOf s.data

/-- `el.text.strip()` of an optional find result, defaulting to the
empty string when the element is absent. -/
def optText : Option Node → String
  | some el => pyStrip el.text
  | none => ""

/-! ## The category classifier (`test_legal_assistant.py`) -/

/-- `LegalAssistant.category_keywords`: per-category keyword lists, in
the source's insertion order. -/
def category_keywords : List (String × List String) :=
  [ ("administrative",
     ["bestuur", "gemeente", "overheid", "vergunning", "besluit",
      "boete", "parkeren", "aanvragen", "procedure", "bezwaar",
      "vergunning", "toestemming", "handhaving"]),
    ("civil",
     ["contract", "schade", "eigendom", "huur", "koop",
      "verhuur", "verkoop", "aansprakelijk", "schulden", "betaling",
      "overeenkomst", "verbintenis", "wanprestatie"]),
    ("criminal",
     ["strafbaar", "overtreding", "boete", "politie",
      "misdrijf", "strafrecht", "veroordeling", "gevangenis",
      "aangifte", "delict", "straf"]),
    ("constitutional",
     ["recht", "grondrecht", "discriminatie", "vrijheid",
      "mensenrechten", "grondwet", "gelijke behandeling",
      "fundamenteel", "constitutioneel"]),
    ("employment",
     ["werk", "baas", "werknemer", "salaris", "contract",
      "ontslag", "arbeid", "werkgever", "loon", "CAO",
      "dienstverband", "arbeidsvoorwaarden", "werktijden"]),
    ("discrimination",
     ["discriminatie", "gelijke behandeling", "ras", "geslacht",
      "leeftijd", "handicap", "afkomst", "religie", "seksuele oriëntatie",
      "ongelijke behandeling", "uitsluiting", "vooroordelen", "intimidatie",
      "pesten", "ongelijkheid"]) ]

/-- `LegalAssistant.related_categories`: the static one-step
domain-relation table. -/
def related_categories : List (String × List String) :=
  [ ("discrimination", ["employment", "constitutional"]),
    ("employment", ["civil", "discrimination"]),
    ("administrative", ["constitutional"]) ]

/-- Python `set.add`: append an element unless already present.
Sets of category names are modelled as duplicate-free lists (the
iteration order of a Python set is unspecified; all set-level
statements below go through `List.toFinset`). -/
def setAdd (s : List String) (x : String) : List String :=
  if s.contains x then s else s ++ [x]

/-- Python `set.update`: add every element of `xs`. -/
def setUpdate (s : List String) (xs : List String) : List String :=
  xs.foldl setAdd s

/-- `LegalAssistant._identify_relevant_categories`: lowercase the
situation, then add every category one of whose keywords occurs as a
substring. -/
def identifyRelevantCategories (situation : String) : List String :=
  let situationLower := pyLower situation
  category_keywords.foldl
    (fun categories ck =>
      if ck.2.any (fun keyword => containsSubstr keyword situationLower) then
        setAdd categories ck.1
      else categories)
    []

/-- `LegalAssistant._expand_categories`: start from a copy of the set
and union in the related-category list of each member that has one. -/
def expandCategories (categories : List String) : List String :=
  categories.foldl
    (fun expanded category =>
      match (related_categories.lookup category) with
      | some rel => setUpdate expanded rel
      | none => expanded)
    categories

/-! ## Metadata model and static lookup table (`wetten_parser.py`) -/

/-- A metadata dict as produced by `WettenParser._get_default_metadata`
and `_extract_metadata`: all six required fields present as strings. -/
structure LawMetadata where
  name_of_law : String
  citation_title : String
  date_of_entry_into_force : String
  regulatory_authority : String
  legal_domain : String
  identification_number : String
deriving DecidableEq, Repr

/-- `WettenParser.common_laws`: the static lookup table of well-known
identifiers, in source order. -/
def commonLaws : List (String × LawMetadata) :=
  [ ("BWBR0005537",
     { name_of_law := "Algemene wet bestuursrecht"
       citation_title := "Awb"
       date_of_entry_into_force := "1994-01-01"
       regulatory_authority := "Ministerie van Justitie en Veiligheid"
       legal_domain := "Administrative Law"
       identification_number := "BWBR0005537" }),
    ("BWBR0005291",
     { name_of_law := "Burgerlijk Wetboek"
       citation_title := "BW"
       date_of_entry_into_force := "1992-01-01"
       regulatory_authority := "Ministerie van Justitie en Veiligheid"
       legal_domain := "Civil Law"
       identification_number := "BWBR0005291" }),
    ("BWBR0001854",
     { name_of_law := "Wetboek van Strafrecht"
       citation_title := "Sr"
       date_of_entry_into_force := "1886-09-01"
       regulatory_authority := "Ministerie van Justitie en Veiligheid"
       legal_domain := "Criminal Law"
       identification_number := "BWBR0001854" }),
    ("BWBR0001840",
     { name_of_law := "Grondwet"
       citation_title := "Gw"
       date_of_entry_into_force := "1815-03-24"
       regulatory_authority := "Ministerie van Binnenlandse Zaken en Koninkrijksrelaties"
       legal_domain := "Constitutional Law"
       identification_number := "BWBR0001840" }),
    ("BWBR0009405",
     { name_of_law := "Wet op de arbeidsovereenkomst"
       citation_title := "BW7"
       date_of_entry_into_force := "1907-07-13"
       regulatory_authority := "Ministerie van Sociale Zaken en Werkgelegenheid"
       legal_domain := "Employment Law"
       identification_number := "BWBR0009405" }),
    ("BWBR0006502",
     { name_of_law := "Algemene wet gelijke behandeling"
       citation_title := "AWGB"
       date_of_entry_into_force := "1994-09-01"
       regulatory_authority := "Ministerie van Binnenlandse Zaken en Koninkrijksrelaties"
       legal_domain := "Equal Treatment Law"
       identification_number := "BWBR0006502" }) ]

/-- `WettenParser.dutch_months`: Dutch month names to two-digit month
numbers. -/
def dutch_months : List (String × String) :=
  [ ("januari", "01"), ("februari", "02"), ("maart", "03"),
    ("april", "04"), ("mei", "05"), ("juni", "06"),
    ("juli", "07"), ("augustus", "08"), ("september", "09"),
    ("oktober", "10"), ("november", "11"), ("december", "12") ]

/-- `WettenParser._get_default_metadata`: the table entry for a known
identifier, else the generic defaults keyed by the identifier. -/
def getDefaultMetadata (bwbId : String) : LawMetadata :=
  match commonLaws.lookup bwbId with
  | some m => m
  | none =>
    { name_of_law := "Unknown Law"
      citation_title := "Unknown"
      date_of_entry_into_force := "Unknown"
      regulatory_authority := "Unknown"
      legal_domain := "Unknown"
      identification_number := bwbId }

/-- `WettenParser._determine_law_type`: ordered substring tests of
Dutch legal stems against the lowercased law name. -/
def determineLawType (lawName : String) : String :=
  let lawNameLower := pyLower lawName
  if ["bestuursrecht", "vergunning", "besluit"].any
      (fun word => containsSubstr word lawNameLower) then "Administrative Law"
  else if ["burgerlijk", "civiel", "contract"].any
      (fun word => containsSubstr word lawNameLower) then "Civil Law"
  else if ["strafrecht", "strafbaar", "misdrijf"].any
      (fun word => containsSubstr word lawNameLower) then "Criminal Law"
  else if ["grondwet", "constitutioneel"].any
      (fun word => containsSubstr word lawNameLower) then "Constitutional Law"
  else if ["arbeid", "werk", "loon"].any
      (fun word => containsSubstr word lawNameLower) then "Employment Law"
  else if ["discriminatie", "gelijke behandeling"].any
      (fun word => containsSubstr word lawNameLower) then "Equal Treatment Law"
  else "Unknown"

/-! ## Hand-compiled `re.search` scanners

One scanner per regular expression of the source, over `List Char`,
with Python `re.search` semantics: the pattern is attempted at every
position from the left, the first position admitting a match wins. -/

/-- A one-or-more greedy character-class step (`\d+`, `\s+`,
`[a-zA-Z]+`): the maximal nonempty run of characters satisfying `p`
and the remainder. -/
def takeClass1 (p : Char → Bool) (l : List Char) : Option (List Char × List Char) :=
  let run := l.takeWhile p
  if run.isEmpty then none else some (run, l.dropWhile p)

/-- Tail of the pattern `(\d{1,2})\s+([a-zA-Z]+)\s+(\d{4})` after the
day digits: whitespace, the month word, whitespace, four year digits. -/
def matchMonthYear (l : List Char) : Option (List Char × List Char) := do
  let (_, l1) ← takeClass1 Char.isWhitespace l
  let (word, l2) ← takeClass1 Char.isAlpha l1
  let (_, l3) ← takeClass1 Char.isWhitespace l2
  match l3 with
  | a :: b :: c :: d :: _ =>
    if a.isDigit && b.isDigit && c.isDigit && d.isDigit then
      some (word, [a, b, c, d])
    else none
  | _ => none

/-- The pattern `(\d{1,2})\s+([a-zA-Z]+)\s+(\d{4})` anchored at the
head of `l`: greedy two-digit day first, backtracking to a one-digit
day as the regex engine does.  Returns (day, month word, year). -/
def matchDutchAt : List Char → Option (List Char × List Char × List Char)
  | [] => none
  | a :: rest =>
    if a.isDigit then
      match rest with
      | [] => none
      | b :: rest2 =>
        if b.isDigit then
          match matchMonthYear rest2 with
          | some (w, y) => some ([a, b], w, y)
          | none =>
            match matchMonthYear (b :: rest2) with
            | some (w, y) => some ([a], w, y)
            | none => none
        else
          match matchMonthYear (b :: rest2) with
          | some (w, y) => some ([a], w, y)
          | none => none
    else none

/-- `re.search(r'(\d{1,2})\s+([a-zA-Z]+)\s+(\d{4})', ·)`. -/
def searchDutchDate : List Char → Option (List Char × List Char × List Char)
  | [] => none
  | c :: rest =>
    match matchDutchAt (c :: rest) with
    | some r => some r
    | none => searchDutchDate rest

/-- The pattern `(\d{2})-(\d{2})-(\d{4})` anchored at the head:
returns (day, month, year). -/
def matchDMYAt : List Char → Option (List Char × List Char × List Char)
  | d1 :: d2 :: h1 :: m1 :: m2 :: h2 :: y1 :: y2 :: y3 :: y4 :: _ =>
    if d1.isDigit && d2.isDigit && h1 == '-' && m1.isDigit && m2.isDigit
        && h2 == '-' && y1.isDigit && y2.isDigit && y3.isDigit && y4.isDigit then
      some ([d1, d2], [m1, m2], [y1, y2, y3, y4])
    else none
  | _ => none

/-- `re.search(r'(\d{2})-(\d{2})-(\d{4})', ·)`. -/
def searchDMY : List Char → Option (List Char × List Char × List Char)
  | [] => none
  | c :: rest =>
    match matchDMYAt (c :: rest) with
    | some r => some r
    | none => searchDMY rest

/-- The pattern `(\d{4})-(\d{2})-(\d{2})` anchored at the head:
returns (year, month, day). -/
def matchYMDAt : List Char → Option (List Char × List Char × List Char)
  | y1 :: y2 :: y3 :: y4 :: h1 :: m1 :: m2 :: h2 :: d1 :: d2 :: _ =>
    if y1.isDigit && y2.isDigit && y3.isDigit && y4.isDigit && h1 == '-'
        && m1.isDigit && m2.isDigit && h2 == '-' && d1.isDigit && d2.isDigit then
      some ([y1, y2, y3, y4], [m1, m2], [d1, d2])
    else none
  | _ => none

/-- `re.search(r'(\d{4})-(\d{2})-(\d{2})', ·)`. -/
def searchYMD : List Char → Option (List Char × List Char × List Char)
  | [] => none
  | c :: rest =>
    match matchYMDAt (c :: rest) with
    | some r => some r
    | none => searchYMD rest

/-- The pattern `BWBR\d+` anchored at the head. -/
def matchBWBRAt : List Char → Option (List Char)
  | 'B' :: 'W' :: 'B' :: 'R' :: rest =>
    match takeClass1 Char.isDigit rest with
    | some (digits, _) => some ('B' :: 'W' :: 'B' :: 'R' :: digits)
    | none => none
  | _ => none

/-- `re.search(r'BWBR\d+', ·)`. -/
def searchBWBR : List Char → Option (List Char)
  | [] => none
  | c :: rest =>
    match matchBWBRAt (c :: rest) with
    | some r => some r
    | none => searchBWBR rest

/-- `re.match(r'^BWBR\d+$', ·)` as a Boolean: the whole string is
`BWBR` followed by one or more digits. -/
def matchesBWBRFull (s : String) : Bool :=
  match s.data with
  | 'B' :: 'W' :: 'B' :: 'R' :: rest => !rest.isEmpty && rest.all Char.isDigit
  | _ => false

/-- Python `str.zfill(2)`: pad with leading zeros to width two. -/
def zfill2 (l : List Char) : List Char :=
  List.replicate (2 - l.length) '0' ++ l

/-- `WettenParser._parse_dutch_date`: try `DD month-name YYYY` (month
looked up in `dutch_months`; an unknown month word falls through),
then `DD-MM-YYYY`, then `YYYY-MM-DD`, then the known date of a
`BWBR...` identifier occurring in the text; `none` otherwise. -/
def parseDutchDate (text : String) : Option String :=
  let step1 : Option String :=
    match searchDutchDate text.data with
    | some (day, word, year) =>
      let day2 := zfill2 day
      match dutch_months.lookup (pyLower (String.mk word)) with
      | some month => some (String.mk (year ++ '-' :: month.data ++ '-' :: day2))
      | none => none
    | none => none
  match step1 with
  | some r => some r
  | none =>
    match searchDMY text.data with
    | some (day, month, year) => some (String.mk (year ++ '-' :: month ++ '-' :: day))
    | none =>
      match searchYMD text.data with
      | some (year, month, day) => some (String.mk (year ++ '-' :: month ++ '-' :: day))
      | none =>
        match searchBWBR text.data with
        | some bwb =>
          match commonLaws.lookup (String.mk bwb) with
          | some m => some m.date_of_entry_into_force
          | none => none
        | none => none

/-- `re.search(r'\(([^)]+)\)', ·)`: first parenthesised group. -/
def matchParenAt : List Char → Option (List Char)
  | '(' :: rest =>
    let run := rest.takeWhile (fun c => !(c == ')'))
    if run.isEmpty then none
    else
      match rest.dropWhile (fun c => !(c == ')')) with
      | ')' :: _ => some run
      | _ => none
  | _ => none

/-- `re.search(r'\(([^)]+)\)', ·)` over the whole text. -/
def searchParen : List Char → Option (List Char)
  | [] => none
  | c :: rest =>
    match matchParenAt (c :: rest) with
    | some r => some r
    | none => searchParen rest

/-- `WettenParser._extract_metadata`: start from the defaults for the
identifier, overwrite each field whose selector matches, then
recompute the legal domain from the (possibly updated) name and set
the identification number. -/
def extractMetadata (sp : Node) (bwbId : String) : LawMetadata :=
  let metadata := getDefaultMetadata bwbId
  let metadata :=
    match sp.find (byTagClass "h1" "wet-titel") with
    | some el => { metadata with name_of_law := pyStrip el.text }
    | none => metadata
  let metadata :=
    match sp.find (byTagClass "div" "wet-citatie") with
    | some el =>
      match searchParen (pyStrip el.text).data with
      | some ct => { metadata with citation_title := String.mk ct }
      | none => metadata
    | none => metadata
  let metadata :=
    match sp.find (byTagClass "div" "wet-inwerkingtreding") with
    | some el =>
      match parseDutchDate (pyStrip el.text) with
      | some d => { metadata with date_of_entry_into_force := d }
      | none => metadata
    | none => metadata
  let metadata :=
    match sp.find (byTagClass "div" "wet-beheerder") with
    | some el => { metadata with regulatory_authority := pyStrip el.text }
    | none => metadata
  let metadata := { metadata with legal_domain := determineLawType metadata.name_of_law }
  { metadata with identification_number := bwbId }

/-! ## Content extraction (`WettenParser._extract_content`)

Each `*_data` dict of the source is initialised with empty-string
fields which are overwritten when the corresponding sub-element is
found; that is exactly `optText` per field. -/

/-- A paragraph dict (`artikel-lid`): number and text. -/
structure ParagraphData where
  number : String
  text : String
deriving DecidableEq, Repr

/-- A top-level article dict: number, title, text, paragraphs. -/
structure ArticleData where
  number : String
  title : String
  text : String
  paragraphs : List ParagraphData
deriving DecidableEq, Repr

/-- An article dict as built inside a chapter or section (the source
gives these no `paragraphs` key). -/
structure SubArticleData where
  number : String
  title : String
  text : String
deriving DecidableEq, Repr

/-- A chapter dict (`wet-hoofdstuk`): number, title, articles. -/
structure ChapterData where
  number : String
  title : String
  articles : List SubArticleData
deriving DecidableEq, Repr

/-- A section dict (`wet-afdeling`): number, title, articles. -/
structure SectionData where
  number : String
  title : String
  articles : List SubArticleData
deriving DecidableEq, Repr

def mkParagraphData (para : Node) : ParagraphData :=
  { number := optText (para.find (byTagClass "div" "lid-nummer"))
    text := optText (para.find (byTagClass "div" "lid-tekst")) }

def mkArticleData (article : Node) : ArticleData :=
  { number := optText (article.find (byTagClass "div" "artikel-nummer"))
    title := optText (article.find (byTagClass "div" "artikel-titel"))
    text := optText (article.find (byTagClass "div" "artikel-tekst"))
    paragraphs := (article.findAll (byTagClass "div" "artikel-lid")).map mkParagraphData }

def mkSubArticleData (article : Node) : SubArticleData :=
  { number := optText (article.find (byTagClass "div" "artikel-nummer"))
    title := optText (article.find (byTagClass "div" "artikel-titel"))
    text := optText (article.find (byTagClass "div" "artikel-tekst")) }

def mkChapterData (chapter : Node) : ChapterData :=
  { number := optText (chapter.find (byTagClass "div" "hoofdstuk-nummer"))
    title := optText (chapter.find (byTagClass "div" "hoofdstuk-titel"))
    articles := (chapter.findAll (byTagClass "div" "wet-artikel")).map mkSubArticleData }

def mkSectionData (sec : Node) : SectionData :=
  { number := optText (sec.find (byTagClass "div" "afdeling-nummer"))
    title := optText (sec.find (byTagClass "div" "afdeling-titel"))
    articles := (sec.findAll (byTagClass "div" "wet-artikel")).map mkSubArticleData }

/-- A content dict as handed to `MCPLaw`: the three keys may in
principle be absent (`Option`); `MCPLaw.__post_init__` fills them. -/
structure PartialContent where
  articles : Option (List ArticleData)
  chapters : Option (List ChapterData)
  sections : Option (List SectionData)
deriving DecidableEq, Repr

/-- `WettenParser._extract_content`: independent document-order walks
for articles, chapters and sections (chapters and sections re-scan
their descendants for contained articles). -/
def extractContent (sp : Node) : PartialContent :=
  { articles := some ((sp.findAll (byTagClass "div" "wet-artikel")).map mkArticleData)
    chapters := some ((sp.findAll (byTagClass "div" "wet-hoofdstuk")).map mkChapterData)
    sections := some ((sp.findAll (byTagClass "div" "wet-afdeling")).map mkSectionData) }

/-! ## The `MCPLaw` dataclass (`law_model.py`) -/

/-- A metadata dict as handed to `MCPLaw`: each of the six required
keys may be absent; `__post_init__` fills the missing ones. -/
structure PartialMetadata where
  name_of_law : Option String
  citation_title : Option String
  date_of_entry_into_force : Option String
  regulatory_authority : Option String
  legal_domain : Option String
  identification_number : Option String
deriving DecidableEq, Repr

/-- A full metadata dict (all six keys present) as a partial one. -/
def toPartialMeta (m : LawMetadata) : PartialMetadata :=
  { name_of_law := some m.name_of_law
    citation_title := some m.citation_title
    date_of_entry_into_force := some m.date_of_entry_into_force
    regulatory_authority := some m.regulatory_authority
    legal_domain := some m.legal_domain
    identification_number := some m.identification_number }

structure MCPLaw where
  metadata : PartialMetadata
  content : PartialContent
deriving DecidableEq, Repr

/-- The metadata half of `MCPLaw.__post_init__`: every absent
required field is set to `"Unknown"`. -/
def postInitMetadata (m : PartialMetadata) : PartialMetadata :=
  { name_of_law := some (m.name_of_law.getD "Unknown")
    citation_title := some (m.citation_title.getD "Unknown")
    date_of_entry_into_force := some (m.date_of_entry_into_force.getD "Unknown")
    regulatory_authority := some (m.regulatory_authority.getD "Unknown")
    legal_domain := some (m.legal_domain.getD "Unknown")
    identification_number := some (m.identification_number.getD "Unknown") }

/-- The content half of `MCPLaw.__post_init__`: every absent sequence
is set to the empty list. -/
def postInitContent (c : PartialContent) : PartialContent :=
  { articles := some (c.articles.getD [])
    chapters := some (c.chapters.getD [])
    sections := some (c.sections.getD []) }

/-- `MCPLaw(metadata=..., content=...)`: construction runs
`__post_init__` on both dicts. -/
def mkMCPLaw (metadata : PartialMetadata) (content : PartialContent) : MCPLaw :=
  { metadata := postInitMetadata metadata, content := postInitContent content }

/-! ## Orchestration and transport (`WettenParser`) -/

def BASE_URL : String := "https://wetten.overheid.nl"

def SEARCH_URL : String := BASE_URL ++ "/zoeken"

/-- `WettenParser.parse_law_to_mcp`: one unretried `requests.get`
(whose outcome, per URL, is the parameter `net`); on
`requests.RequestException` the document is built from the default
metadata and explicitly empty content. -/
def parseLawToMCP (net : String → Except String String) (soupOf : String → Node)
    (bwbId : String) : MCPLaw :=
  match net (BASE_URL ++ "/" ++ bwbId) with
  | .ok html =>
    let sp := soupOf html
    mkMCPLaw (toPartialMeta (extractMetadata sp bwbId)) (extractContent sp)
  | .error _ =>
    mkMCPLaw (toPartialMeta (getDefaultMetadata bwbId))
      { articles := some [], chapters := some [], sections := some [] }

/-- Outcome of one HTTP attempt inside `_make_request`: a response
body, or a raised `requests.RequestException` message. -/
inductive ReqResult where
  | ok (body : String)
  | err (e : String)
deriving DecidableEq, Repr

/-- How `_make_request` finishes: a returned body, a re-raised final
exception, or the Python fall-through `return None` (only reachable
when `max_retries = 0`). -/
inductive ReqFinal where
  | ok (body : String)
  | raised (e : String)
  | fellThrough
deriving DecidableEq, Repr

/-- Observable behaviour of one `_make_request` call: its result, the
number of HTTP attempts performed, and the number of `time.sleep(1)`
calls (equivalently, seconds slept between attempts). -/
structure RequestOutcome where
  result : ReqFinal
  attempts : Nat
  sleeps : Nat
deriving DecidableEq, Repr

/-- The `for attempt in range(max_retries)` loop of `_make_request`:
a successful attempt returns at once; a failing attempt re-raises if
it is the last (`attempt == max_retries - 1`), else sleeps one second
and continues. -/
def requestLoop (net : Nat → ReqResult) (maxRetries : Nat) :
    List Nat → Nat → Nat → RequestOutcome
  | [], made, sleeps => ⟨.fellThrough, made, sleeps⟩
  | attempt :: rest, made, sleeps =>
    match net attempt with
    | .ok body => ⟨.ok body, made + 1, sleeps⟩
    | .err e =>
      if attempt == maxRetries - 1 then ⟨.raised e, made + 1, sleeps⟩
      else requestLoop net maxRetries rest (made + 1) (sleeps + 1)

/-- `WettenParser._make_request` with the per-attempt outcomes given
by `net` (already specialised to one URL and parameter dict). -/
def makeRequest (net : Nat → ReqResult) (maxRetries : Nat := 3) : RequestOutcome :=
  requestLoop net maxRetries (List.range maxRetries) 0 0

/-- The transport oracle for methods that issue several requests:
per URL, per query-parameter list, per attempt index, the outcome of
one HTTP attempt. -/
def Net : Type := String → List (String × String) → Nat → ReqResult

/-- `WettenParser.fetch_law_by_bwb_id`: canonicalise the identifier
by prepending `BWBR` when absent, fetch with default retries, and
wrap a raised `RequestException` in a `ValueError`.  `ok none` is the
unreachable Python `return None` fall-through of `_make_request`. -/
def fetchLawByBwbId (net : Net) (bwbId : String) : Except String (Option String) :=
  let bwbId := if pyStartsWith bwbId "BWBR" then bwbId else "BWBR" ++ bwbId
  let url := BASE_URL ++ "/" ++ bwbId
  match (makeRequest (net url [])).result with
  | .ok body => .ok (some body)
  | .raised e => .error ("Failed to fetch law with BWB ID " ++ bwbId ++ ": " ++ e)
  | .fellThrough => .ok none

/-- A result dict of `search_laws`. -/
structure SearchResult where
  title : String
  bwb_id : String
  url : String
deriving DecidableEq, Repr

/-- The `find_all` filter of the full-text branch: `div` or `article`
elements with a truthy class containing `result` or `wet`
(case-insensitively). -/
def searchResultFilter (n : Node) : Bool :=
  (n.tag == "div" || n.tag == "article") &&
    n.classes.any (fun x => !(x == "") &&
      (containsSubstr "result" (pyLower x) || containsSubstr "wet" (pyLower x)))

/-- The per-element result loop of `search_laws`: skip elements
without a `h3`/`h2`/`a` title or without an `a` link whose `href`
contains a `BWBR` identifier; append otherwise, and break once
`len(results) >= max_results` (checked after appending). -/
def searchLoop (maxResults : Nat) : List Node → List SearchResult → List SearchResult
  | [], results => results
  | el :: rest, results =>
    match el.find (fun n => n.tag == "h3" || n.tag == "h2" || n.tag == "a") with
    | none => searchLoop maxResults rest results
    | some titleEl =>
      let title := pyStrip titleEl.text
      match el.find (fun n => n.tag == "a" &&
          (match n.href with
           | some h => (searchBWBR h.data).isSome
           | none => false)) with
      | none => searchLoop maxResults rest results
      | some link =>
        let href := (link.href).getD ""
        match searchBWBR href.data with
        | none => searchLoop maxResults rest results
        | some bwb =>
          let url := if pyStartsWith href "/" then BASE_URL ++ href else href
          let results := results ++ [⟨title, String.mk bwb, url⟩]
          if maxResults ≤ results.length then results
          else searchLoop maxResults rest results

/-- The regular-search branch of `search_laws`: post the query to the
search URL (default retries); any raised exception is absorbed by the
enclosing `except Exception` into an empty result list (so is the
`None` fall-through, which would make `BeautifulSoup` raise). -/
def fullTextSearch (net : Net) (soupOf : String → Node) (query : String)
    (maxResults : Nat) : List SearchResult :=
  match (makeRequest (net SEARCH_URL [("zoeken_term", query)])).result with
  | .ok html => searchLoop maxResults ((soupOf html).findAll searchResultFilter) []
  | .raised _ => []
  | .fellThrough => []

/-- `WettenParser.search_laws`.  `parseMeta` is `parse_metadata`
abstracted as an oracle: that method reads `datetime.now()` (real
time), and `search_laws` uses only its `name_of_law` field; a
`.error` is the exception path, caught by `except Exception: pass`,
which falls through to the full-text search. -/
def searchLaws (net : Net) (soupOf : String → Node)
    (parseMeta : Option String → Except String String)
    (query : String) (maxResults : Nat := 10) : List SearchResult :=
  if matchesBWBRFull query then
    match fetchLawByBwbId net query with
    | .ok content =>
      match parseMeta content with
      | .ok nameOfLaw => [⟨nameOfLaw, query, BASE_URL ++ "/" ++ query⟩]
      | .error _ => fullTextSearch net soupOf query maxResults
    | .error _ => fullTextSearch net soupOf query maxResults
  else fullTextSearch net soupOf query maxResults

/-! ## Theorems -/

/-- The one-step related-domain lookup of a single category, as a set. -/
def relatedOf (category : String) : Finset String :=
  ((related_categories.lookup category).getD []).toFinset

theorem toFinset_setAdd (s : List String) (x : String) :
    (setAdd s x).toFinset = insert x s.toFinset := by
  ext a
  by_cases hx : x ∈ s
  · have hc : s.contains x = true := by simpa [List.contains] using hx
    simp only [setAdd, hc, if_true, List.mem_toFinset, Finset.mem_insert]
    constructor
    · exact Or.inr
    · rintro (rfl | h)
      · exact hx
      · exact h
  · simp [setAdd, List.contains, hx, or_comm]

theorem toFinset_setUpdate (s xs : List String) :
    (setUpdate s xs).toFinset = s.toFinset ∪ xs.toFinset := by
  induction xs generalizing s with
  | nil => simp [setUpdate]
  | cons x xs ih =>
    have h : setUpdate s (x :: xs) = setUpdate (setAdd s x) xs := rfl
    rw [h, ih, toFinset_setAdd]
    ext a
    simp only [Finset.mem_union, Finset.mem_insert, List.mem_toFinset, List.mem_cons]
    tauto

theorem expand_foldl_toFinset (l acc : List String) :
    (l.foldl
      (fun expanded category =>
        match (related_categories.lookup category) with
        | some rel => setUpdate expanded rel
        | none => expanded) acc).toFinset
    = acc.toFinset ∪ l.toFinset.biUnion relatedOf := by
  induction l generalizing acc with
  | nil => simp
  | cons c l ih =>
    rw [List.foldl_cons, ih]
    have hstep :
        (match (related_categories.lookup c) with
         | some rel => setUpdate acc rel
         | none => acc).toFinset = acc.toFinset ∪ relatedOf c := by
      cases h : related_categories.lookup c with
      | some rel => simp [toFinset_setUpdate, relatedOf, h]
      | none => simp [relatedOf, h]
    rw [hstep]
    ext a
    simp only [Finset.mem_union, Finset.mem_biUnion, List.mem_toFinset, List.mem_cons,
      List.toFinset_cons, Finset.mem_insert]
    constructor
    · rintro ((h | h) | ⟨b, hb, h⟩)
      · exact Or.inl h
      · exact Or.inr ⟨c, Or.inl rfl, h⟩
      · exact Or.inr ⟨b, Or.inr (by simpa using hb), h⟩
    · rintro (h | ⟨b, (rfl | hb), h⟩)
      · exact Or.inl (Or.inl h)
      · exact Or.inl (Or.inr h)
      · exact Or.inr ⟨b, by simpa using hb, h⟩

/-- C8: for every set `S` of domain tags, `_expand_categories S` is
`S` united with the direct related-domain lookups of the members of
`S` — one application of the static relation table, one level deep,
no transitive closure — and is in particular a superset of `S`. -/
theorem expandCategories_one_level (S : List String) :
    (expandCategories S).toFinset = S.toFinset ∪ S.toFinset.biUnion relatedOf ∧
    S.toFinset ⊆ (expandCategories S).toFinset := by
  have h : (expandCategories S).toFinset
      = S.toFinset ∪ S.toFinset.biUnion relatedOf := expand_foldl_toFinset S S
  exact ⟨h, h ▸ Finset.subset_union_left⟩

theorem lookup_mem {α β : Type _} [BEq α] [LawfulBEq α] {l : List (α × β)} {a : α} {b : β}
    (h : l.lookup a = some b) : (a, b) ∈ l := by
  induction l with
  | nil => simp [List.lookup] at h
  | cons p l ih =>
    obtain ⟨k, v⟩ := p
    rw [List.lookup_cons] at h
    cases hbeq : a == k with
    | true =>
      rw [hbeq] at h
      obtain rfl : v = b := by simpa using h
      obtain rfl : a = k := eq_of_beq hbeq
      exact List.mem_cons_self _ _
    | false =>
      rw [hbeq] at h
      exact List.mem_cons_of_mem _ (ih h)

/-- Every entry of the static table has a legal domain that
`_determine_law_type` re-derives from its name, and an
identification number equal to its key. -/
theorem commonLaws_coherent :
    ∀ p ∈ commonLaws,
      determineLawType p.2.name_of_law = p.2.legal_domain ∧
      p.2.identification_number = p.1 := by
  decide

/-- C1: for every identifier in the static lookup table, running
`_extract_metadata` on markup in which none of the four expected
selectors (`h1.wet-titel`, `div.wet-citatie`,
`div.wet-inwerkingtreding`, `div.wet-beheerder`) matches yields
exactly the table entry for that identifier — all six fields. -/
theorem extractMetadata_fallback_table (bwbId : String) (meta : LawMetadata) (sp : Node)
    (hmem : commonLaws.lookup bwbId = some meta)
    (h1 : sp.find (byTagClass "h1" "wet-titel") = none)
    (h2 : sp.find (byTagClass "div" "wet-citatie") = none)
    (h3 : sp.find (byTagClass "div" "wet-inwerkingtreding") = none)
    (h4 : sp.find (byTagClass "div" "wet-beheerder") = none) :
    extractMetadata sp bwbId = meta := by
  obtain ⟨hdom, hid⟩ := commonLaws_coherent (bwbId, meta) (lookup_mem hmem)
  simp only [extractMetadata, getDefaultMetadata, hmem, h1, h2, h3, h4]
  cases meta
  simp_all

/-- Witness for C1: the Grondwet entry, extracted from an empty
element tree. -/
theorem extractMetadata_fallback_table_witness :
    extractMetadata (Node.mk "html" [] none "" []) "BWBR0001840" =
      { name_of_law := "Grondwet"
        citation_title := "Gw"
        date_of_entry_into_force := "1815-03-24"
        regulatory_authority := "Ministerie van Binnenlandse Zaken en Koninkrijksrelaties"
        legal_domain := "Constitutional Law"
        identification_number := "BWBR0001840" } :=
  extractMetadata_fallback_table "BWBR0001840" _ (Node.mk "html" [] none "" [])
    (by decide) rfl rfl rfl rfl

/-- C2 fails on the code: the text `"Ik word gediscrimineerd op mijn
werk"` contains no keyword of the `discrimination` category
(`"discriminatie"` is not a substring of `"gediscrimineerd"`), so
classification does not include `"discrimination"`, and the expansion
of the classification does not include `"constitutional"`. -/
theorem classify_work_discrimination_counterexample :
    "discrimination" ∉ identifyRelevantCategories "Ik word gediscrimineerd op mijn werk" ∧
    "constitutional" ∉
      expandCategories (identifyRelevantCategories "Ik word gediscrimineerd op mijn werk") := by
  decide

/-- C2 (amended): classifying `"Ik word gediscrimineerd op mijn
werk"` yields exactly `{"employment"}` (the category keyword `"werk"`
matches; no `discrimination` keyword does), and expanding that set
yields exactly `{"employment", "civil", "discrimination"}` via the
`employment` row of the static relation table — `"constitutional"` is
not added. -/
theorem classify_work_discrimination :
    identifyRelevantCategories "Ik word gediscrimineerd op mijn werk" = ["employment"] ∧
    (expandCategories
        (identifyRelevantCategories "Ik word gediscrimineerd op mijn werk")).toFinset
      = {"employment", "civil", "discrimination"} := by
  constructor
  · decide
  · decide

/-- C6: every Document construction runs `MCPLaw.__post_init__`, so
all six required metadata fields are present afterwards: a field
present in the input dict is kept, an absent one is filled with the
default `"Unknown"` rather than left absent. -/
theorem postInit_metadata_total (pm : PartialMetadata) (pc : PartialContent) :
    (mkMCPLaw pm pc).metadata.name_of_law = some (pm.name_of_law.getD "Unknown") ∧
    (mkMCPLaw pm pc).metadata.citation_title = some (pm.citation_title.getD "Unknown") ∧
    (mkMCPLaw pm pc).metadata.date_of_entry_into_force
      = some (pm.date_of_entry_into_force.getD "Unknown") ∧
    (mkMCPLaw pm pc).metadata.regulatory_authority
      = some (pm.regulatory_authority.getD "Unknown") ∧
    (mkMCPLaw pm pc).metadata.legal_domain = some (pm.legal_domain.getD "Unknown") ∧
    (mkMCPLaw pm pc).metadata.identification_number
      = some (pm.identification_number.getD "Unknown") := by
  simp [mkMCPLaw, postInitMetadata]

/-- C5: `content.articles`, `.chapters` and `.sections` are present
(as possibly empty sequences) on every Document either construction
path of `parse_law_to_mcp` produces; `__post_init__` fills any absent
sequence with `[]` and keeps a present one; and every article (and
chapter and section) of an extraction is built by `mkArticleData`
(resp. `mkChapterData`, `mkSectionData`), whose number/title/text
fields are total strings — `optText` of the sub-element search, the
empty string when the sub-element is absent, never null. -/
theorem document_content_sequences_total :
    (∀ (net : String → Except String String) (soupOf : String → Node) (bwbId : String),
      ((parseLawToMCP net soupOf bwbId).content.articles).isSome ∧
      ((parseLawToMCP net soupOf bwbId).content.chapters).isSome ∧
      ((parseLawToMCP net soupOf bwbId).content.sections).isSome) ∧
    (∀ (pm : PartialMetadata) (pc : PartialContent),
      (mkMCPLaw pm pc).content.articles = some (pc.articles.getD []) ∧
      (mkMCPLaw pm pc).content.chapters = some (pc.chapters.getD []) ∧
      (mkMCPLaw pm pc).content.sections = some (pc.sections.getD [])) ∧
    (∀ (sp : Node),
      (∀ a ∈ ((extractContent sp).articles.getD []), ∃ el, a = mkArticleData el) ∧
      (∀ ch ∈ ((extractContent sp).chapters.getD []), ∃ el, ch = mkChapterData el) ∧
      (∀ sec ∈ ((extractContent sp).sections.getD []), ∃ el, sec = mkSectionData el)) := by
  refine ⟨?_, ?_, ?_⟩
  · intro net soupOf bwbId
    cases h : net (BASE_URL ++ "/" ++ bwbId) <;>
      simp [parseLawToMCP, h, mkMCPLaw, postInitContent, extractContent]
  · intro pm pc
    simp [mkMCPLaw, postInitContent]
  · intro sp
    refine ⟨?_, ?_, ?_⟩ <;>
      · intro a ha
        simp only [extractContent, Option.getD_some, List.mem_map] at ha
        obtain ⟨el, _, rfl⟩ := ha
        exact ⟨el, rfl⟩

/-- Witness for C5: a tree with one `div.wet-artikel` child; its
extracted article is in the articles sequence and decomposes through
`mkArticleData`. -/
theorem document_content_sequences_total_witness :
    mkArticleData (Node.mk "div" ["wet-artikel"] none "Artikel 1" []) ∈
      ((extractContent (Node.mk "html" [] none ""
        [Node.mk "div" ["wet-artikel"] none "Artikel 1" []])).articles.getD []) ∧
    ∃ el, mkArticleData (Node.mk "div" ["wet-artikel"] none "Artikel 1" [])
      = mkArticleData el := by
  constructor
  · decide
  · exact (document_content_sequences_total.2.2
      (Node.mk "html" [] none "" [Node.mk "div" ["wet-artikel"] none "Artikel 1" []])).1
      _ (by decide)

/-- C4: when the fetch of `parse_law_to_mcp` raises, no exception
propagates: the result is a Document whose metadata is exactly the
default metadata for the identifier — the static table entry for
known identifiers, the generic defaults otherwise — and whose content
has explicitly empty articles, chapters and sections sequences. -/
theorem parseLawToMCP_fetch_failure (net : String → Except String String)
    (soupOf : String → Node) (bwbId e : String)
    (hfail : net (BASE_URL ++ "/" ++ bwbId) = .error e) :
    (parseLawToMCP net soupOf bwbId
      = mkMCPLaw (toPartialMeta (getDefaultMetadata bwbId))
          { articles := some [], chapters := some [], sections := some [] }) ∧
    (∀ m, commonLaws.lookup bwbId = some m →
      (parseLawToMCP net soupOf bwbId).metadata = toPartialMeta m) ∧
    (commonLaws.lookup bwbId = none →
      (parseLawToMCP net soupOf bwbId).metadata = toPartialMeta
        { name_of_law := "Unknown Law", citation_title := "Unknown",
          date_of_entry_into_force := "Unknown", regulatory_authority := "Unknown",
          legal_domain := "Unknown", identification_number := bwbId }) ∧
    ((parseLawToMCP net soupOf bwbId).content =
      { articles := some [], chapters := some [], sections := some [] }) := by
  refine ⟨?_, ?_, ?_, ?_⟩
  · simp [parseLawToMCP, hfail]
  · intro m hm
    simp [parseLawToMCP, hfail, mkMCPLaw, postInitMetadata, toPartialMeta,
      getDefaultMetadata, hm]
  · intro hm
    simp [parseLawToMCP, hfail, mkMCPLaw, postInitMetadata, toPartialMeta,
      getDefaultMetadata, hm]
  · simp [parseLawToMCP, hfail, mkMCPLaw, postInitContent]

/-- Witness for C4: a network that always raises, on a known
identifier. -/
theorem parseLawToMCP_fetch_failure_witness :
    ((fun _ : String => (Except.error "ConnectionError" : Except String String))
        (BASE_URL ++ "/" ++ "BWBR0001840") = Except.error "ConnectionError") ∧
    parseLawToMCP (fun _ => Except.error "ConnectionError")
        (fun _ => Node.mk "html" [] none "" []) "BWBR0001840"
      = mkMCPLaw (toPartialMeta (getDefaultMetadata "BWBR0001840"))
          { articles := some [], chapters := some [], sections := some [] } :=
  ⟨rfl, (parseLawToMCP_fetch_failure (fun _ => Except.error "ConnectionError")
    (fun _ => Node.mk "html" [] none "" []) "BWBR0001840" "ConnectionError" rfl).1⟩

theorem requestLoop_all_fail (net : Nat → ReqResult) (m : Nat) (e : Nat → String) :
    ∀ (n a made sleeps : Nat), n ≠ 0 → a + n = m →
      (∀ i, a ≤ i → i < m → net i = .err (e i)) →
      requestLoop net m (List.range' a n) made sleeps
        = ⟨.raised (e (m - 1)), made + n, sleeps + n - 1⟩ := by
  intro n
  induction n with
  | zero => intro a made sleeps h; exact absurd rfl h
  | succ n ih =>
    intro a made sleeps _ ha hfail
    rw [List.range'_succ]
    simp only [requestLoop]
    rw [hfail a le_rfl (by omega)]
    by_cases hlast : a = m - 1
    · have hn0 : n = 0 := by omega
      subst hn0
      subst hlast
      simp
    · have hne : (a == m - 1) = false := beq_eq_false_iff_ne.mpr hlast
      simp only [hne, Bool.false_eq_true, if_false]
      rw [ih (a + 1) (made + 1) (sleeps + 1) (by omega) (by omega)
        (fun i hi1 hi2 => hfail i (by omega) hi2)]
      simp only [RequestOutcome.mk.injEq]
      refine ⟨trivial, by omega, by omega⟩

theorem requestLoop_success (net : Nat → ReqResult) (m k : Nat) (b : String) :
    ∀ (n a made sleeps : Nat), a + n = m → a ≤ k → k < m → net k = .ok b →
      (∀ j, a ≤ j → j < k → ∃ ej, net j = .err ej) →
      requestLoop net m (List.range' a n) made sleeps
        = ⟨.ok b, made + (k - a) + 1, sleeps + (k - a)⟩ := by
  intro n
  induction n with
  | zero => intro a made sleeps ha hak hkm _ _; exact absurd hkm (by omega)
  | succ n ih =>
    intro a made sleeps ha hak hkm hok hfail
    rw [List.range'_succ]
    simp only [requestLoop]
    by_cases hk : a = k
    · subst hk
      rw [hok]
      simp
    · have hlt : a < k := by omega
      obtain ⟨ej, hej⟩ := hfail a le_rfl hlt
      rw [hej]
      have hne : (a == m - 1) = false := beq_eq_false_iff_ne.mpr (by omega)
      simp only [hne, Bool.false_eq_true, if_false]
      rw [ih (a + 1) (made + 1) (sleeps + 1) (by omega) (by omega) hkm hok
        (fun j hj1 hj2 => hfail j (by omega) hj2)]
      simp only [RequestOutcome.mk.injEq]
      refine ⟨trivial, by omega, by omega⟩

/-- C3: `_make_request` under a sustained network failure performs
exactly `max_retries` HTTP attempts with `max_retries - 1` one-second
sleeps in between, and re-raises the final attempt's exception
unchanged; if some attempt `k` succeeds after the earlier ones
failed, it returns that attempt's body at once, having made only
`k + 1` attempts. -/
theorem makeRequest_retry_semantics (net : Nat → ReqResult) (maxRetries : Nat)
    (hpos : 1 ≤ maxRetries) :
    (∀ e : Nat → String, (∀ i, i < maxRetries → net i = .err (e i)) →
      makeRequest net maxRetries
        = ⟨.raised (e (maxRetries - 1)), maxRetries, maxRetries - 1⟩) ∧
    (∀ k b, k < maxRetries → net k = .ok b →
      (∀ j, j < k → ∃ ej, net j = .err ej) →
      makeRequest net maxRetries = ⟨.ok b, k + 1, k⟩) := by
  constructor
  · intro e hfail
    unfold makeRequest
    rw [List.range_eq_range']
    rw [requestLoop_all_fail net maxRetries e maxRetries 0 0 0 (by omega) (by omega)
      (fun i _ hi => hfail i hi)]
    simp
  · intro k b hk hok hfail
    unfold makeRequest
    rw [List.range_eq_range']
    rw [requestLoop_success net maxRetries k b maxRetries 0 0 0 (by omega) (by omega)
      hk hok (fun j _ hj => hfail j hj)]
    simp

/-- Witness for C3, at the default `max_retries = 3`: a permanently
failing network exhausts all three attempts (two sleeps) and raises;
a network failing twice then succeeding returns the body after three
attempts without raising. -/
theorem makeRequest_retry_semantics_witness :
    (1 : Nat) ≤ 3 ∧
    makeRequest (fun _ => ReqResult.err "ConnectionError") 3
      = ⟨.raised "ConnectionError", 3, 2⟩ ∧
    makeRequest (fun i => if i < 2 then ReqResult.err "ConnectionError" else .ok "<html>") 3
      = ⟨.ok "<html>", 3, 2⟩ := by
  refine ⟨by omega, ?_, ?_⟩
  · exact (makeRequest_retry_semantics (fun _ => ReqResult.err "ConnectionError") 3
      (by omega)).1 (fun _ => "ConnectionError") (fun i _ => rfl)
  · refine (makeRequest_retry_semantics
      (fun i => if i < 2 then ReqResult.err "ConnectionError" else .ok "<html>") 3
      (by omega)).2 2 "<html>" (by omega) (by norm_num) ?_
    intro j hj
    refine ⟨"ConnectionError", ?_⟩
    interval_cases j <;> rfl

theorem takeClass1_eq_some {p : Char → Bool} {l run rest : List Char}
    (h : takeClass1 p l = some (run, rest)) :
    run = l.takeWhile p ∧ run ≠ [] ∧ rest = l.dropWhile p := by
  unfold takeClass1 at h
  dsimp only [] at h
  split at h
  · exact absurd h (by simp)
  · next hne =>
    obtain ⟨h1, h2⟩ : l.takeWhile p = run ∧ l.dropWhile p = rest := by
      simpa using h
    refine ⟨h1.symm, ?_, h2.symm⟩
    rw [← h1]
    simpa [List.isEmpty_iff] using hne

/-- The shape of a `BWBR\d+` match: the literal prefix followed by a
nonempty run of digits. -/
theorem matchBWBRAt_shape {l r : List Char} (h : matchBWBRAt l = some r) :
    ∃ ds, r = 'B' :: 'W' :: 'B' :: 'R' :: ds ∧ ds ≠ [] ∧ ∀ c ∈ ds, c.isDigit := by
  unfold matchBWBRAt at h
  split at h
  · next rest =>
    split at h
    · next digits rest2 heq =>
      obtain ⟨h1, h2, _⟩ := takeClass1_eq_some heq
      refine ⟨digits, by simpa using h.symm, h2, ?_⟩
      intro c hc
      rw [h1] at hc
      exact List.mem_takeWhile_imp hc
    · exact absurd h (by simp)
  · exact absurd h (by simp)

theorem searchBWBR_shape {l r : List Char} (h : searchBWBR l = some r) :
    ∃ ds, r = 'B' :: 'W' :: 'B' :: 'R' :: ds ∧ ds ≠ [] ∧ ∀ c ∈ ds, c.isDigit := by
  induction l with
  | nil => simp [searchBWBR] at h
  | cons c rest ih =>
    rw [searchBWBR] at h
    split at h
    · next r' heq =>
      obtain rfl : r' = r := by simpa using h
      exact matchBWBRAt_shape heq
    · exact ih h

theorem matchesBWBRFull_shape {q : String} (h : matchesBWBRFull q = true) :
    ∃ ds, q.data = 'B' :: 'W' :: 'B' :: 'R' :: ds ∧ ds ≠ [] ∧ ∀ c ∈ ds, c.isDigit := by
  unfold matchesBWBRFull at h
  split at h
  · next rest heq =>
    rw [Bool.and_eq_true, Bool.not_eq_true', List.isEmpty_eq_false_iff_exists_mem] at h
    obtain ⟨⟨x, hx⟩, hall⟩ := h
    refine ⟨rest, heq, by rintro rfl; exact absurd hx (List.not_mem_nil x), ?_⟩
    intro c hc
    exact List.all_eq_true.mp hall c hc
  · exact absurd h (by simp)

/-- An invariant for the result loop of `search_laws`: every
accumulated entry's `bwb_id` is `BWBR` followed by a nonempty digit
run. -/
def wellFormedBwbId (r : SearchResult) : Prop :=
  ∃ ds, r.bwb_id.data = 'B' :: 'W' :: 'B' :: 'R' :: ds ∧ ds ≠ [] ∧ ∀ c ∈ ds, c.isDigit

theorem mem_append_singleton_wf {acc : List SearchResult}
    (hacc : ∀ r ∈ acc, wellFormedBwbId r) {entry : SearchResult}
    (hentry : wellFormedBwbId entry) :
    ∀ x ∈ acc ++ [entry], wellFormedBwbId x := by
  intro x hx
  rcases List.mem_append.mp hx with hx | hx
  · exact hacc x hx
  · rw [List.mem_singleton.mp hx]
    exact hentry

theorem searchLoop_wellFormed (maxResults : Nat) :
    ∀ (els : List Node) (acc : List SearchResult),
      (∀ r ∈ acc, wellFormedBwbId r) →
      ∀ r ∈ searchLoop maxResults els acc, wellFormedBwbId r := by
  intro els
  induction els with
  | nil => intro acc hacc r hr; exact hacc r hr
  | cons el rest ih =>
    intro acc hacc r hr
    rw [searchLoop] at hr
    dsimp only [] at hr
    split at hr
    · exact ih acc hacc r hr
    · split at hr
      · exact ih acc hacc r hr
      · split at hr
        · exact ih acc hacc r hr
        · next bwb heq =>
          split at hr <;> split at hr <;>
            first
            | exact mem_append_singleton_wf hacc (searchBWBR_shape heq) r hr
            | exact ih _ (mem_append_singleton_wf hacc (searchBWBR_shape heq)) r hr

theorem searchLoop_length_le (maxResults : Nat) :
    ∀ (els : List Node) (acc : List SearchResult),
      acc.length < maxResults →
      (searchLoop maxResults els acc).length ≤ maxResults := by
  intro els
  induction els with
  | nil => intro acc hacc; rw [searchLoop]; omega
  | cons el rest ih =>
    intro acc hacc
    rw [searchLoop]
    dsimp only []
    split
    · exact ih acc hacc
    · split
      · exact ih acc hacc
      · split
        · exact ih acc hacc
        · split <;> split <;>
            first
            | (simp
               omega)
            | (rename_i hgo
               refine ih _ ?_
               simp at hgo ⊢
               omega)

theorem fullTextSearch_length_le (net : Net) (soupOf : String → Node)
    (query : String) (maxResults : Nat) (hpos : 1 ≤ maxResults) :
    (fullTextSearch net soupOf query maxResults).length ≤ maxResults := by
  unfold fullTextSearch
  split
  · exact searchLoop_length_le maxResults _ [] (by simpa using hpos)
  · simp
  · simp

theorem fullTextSearch_wellFormed (net : Net) (soupOf : String → Node)
    (query : String) (maxResults : Nat) :
    ∀ r ∈ fullTextSearch net soupOf query maxResults, wellFormedBwbId r := by
  intro r hr
  unfold fullTextSearch at hr
  split at hr
  · exact searchLoop_wellFormed maxResults _ [] (by simp) r hr
  · simp at hr
  · simp at hr

/-- C9 fails on the code for identifiers given without the `BWBR`
prefix: `search_laws` gates the direct-lookup path on
`re.match(r"^BWBR\d+$", query)`, so the bare identifier `"0005537"`
goes to full-text search (here empty) even though the direct fetch
of the law would succeed, while the prefixed form of the same
identifier in the same environment does return the single direct
result. -/
theorem searchLaws_unprefixed_counterexample :
    searchLaws
      (fun url _ _ => if url == BASE_URL ++ "/BWBR0005537"
        then ReqResult.ok "lawpage" else ReqResult.err "down")
      (fun _ => Node.mk "html" [] none "" [])
      (fun _ => Except.ok "Algemene wet bestuursrecht")
      "0005537" 10 = [] ∧
    searchLaws
      (fun url _ _ => if url == BASE_URL ++ "/BWBR0005537"
        then ReqResult.ok "lawpage" else ReqResult.err "down")
      (fun _ => Node.mk "html" [] none "" [])
      (fun _ => Except.ok "Algemene wet bestuursrecht")
      "BWBR0005537" 10
      = [{ title := "Algemene wet bestuursrecht", bwb_id := "BWBR0005537",
           url := BASE_URL ++ "/BWBR0005537" }] := by
  constructor
  · decide
  · decide

/-- C9 (amended): only a query already in prefixed identifier form
(matching `^BWBR\d+$`) takes the direct-lookup path; for such a query
a successful direct fetch-and-parse returns the single-element result
whose identifier is the query itself — which necessarily carries the
`BWBR` prefix, i.e. is its own canonicalisation — and any failure of
the direct fetch or of the metadata parse, as well as any query not
in prefixed form (including bare identifiers known to the table),
falls through to the full-text search. -/
theorem searchLaws_identifier_query (net : Net) (soupOf : String → Node)
    (parseMeta : Option String → Except String String) (query : String)
    (maxResults : Nat) :
    (∀ body nameOfLaw, matchesBWBRFull query = true →
      fetchLawByBwbId net query = .ok body →
      parseMeta body = .ok nameOfLaw →
      searchLaws net soupOf parseMeta query maxResults
        = [{ title := nameOfLaw, bwb_id := query, url := BASE_URL ++ "/" ++ query }] ∧
        ∃ ds, query.data = 'B' :: 'W' :: 'B' :: 'R' :: ds ∧ ds ≠ [] ∧ ∀ c ∈ ds, c.isDigit) ∧
    (∀ e, matchesBWBRFull query = true →
      fetchLawByBwbId net query = .error e →
      searchLaws net soupOf parseMeta query maxResults
        = fullTextSearch net soupOf query maxResults) ∧
    (∀ body e, matchesBWBRFull query = true →
      fetchLawByBwbId net query = .ok body →
      parseMeta body = .error e →
      searchLaws net soupOf parseMeta query maxResults
        = fullTextSearch net soupOf query maxResults) ∧
    (matchesBWBRFull query = false →
      searchLaws net soupOf parseMeta query maxResults
        = fullTextSearch net soupOf query maxResults) := by
  refine ⟨?_, ?_, ?_, ?_⟩
  · intro body nameOfLaw hq hfetch hparse
    refine ⟨?_, matchesBWBRFull_shape hq⟩
    simp [searchLaws, hq, hfetch, hparse]
  · intro e hq hfetch
    simp [searchLaws, hq, hfetch]
  · intro body e hq hfetch hparse
    simp [searchLaws, hq, hfetch, hparse]
  · intro hq
    simp [searchLaws, hq]

/-- Witness for C9 (amended): a prefixed known identifier with a
successful direct fetch and parse. -/
theorem searchLaws_identifier_query_witness :
    matchesBWBRFull "BWBR0005537" = true ∧
    fetchLawByBwbId
      (fun url _ _ => if url == BASE_URL ++ "/BWBR0005537"
        then ReqResult.ok "lawpage" else ReqResult.err "down")
      "BWBR0005537" = .ok (some "lawpage") ∧
    searchLaws
      (fun url _ _ => if url == BASE_URL ++ "/BWBR0005537"
        then ReqResult.ok "lawpage" else ReqResult.err "down")
      (fun _ => Node.mk "html" [] none "" [])
      (fun _ => Except.ok "Algemene wet bestuursrecht")
      "BWBR0005537" 10
      = [{ title := "Algemene wet bestuursrecht", bwb_id := "BWBR0005537",
           url := BASE_URL ++ "/" ++ "BWBR0005537" }] := by
  refine ⟨by decide, by rfl, ?_⟩
  exact (searchLaws_identifier_query
    (fun url _ _ => if url == BASE_URL ++ "/BWBR0005537"
      then ReqResult.ok "lawpage" else ReqResult.err "down")
    (fun _ => Node.mk "html" [] none "" [])
    (fun _ => Except.ok "Algemene wet bestuursrecht")
    "BWBR0005537" 10).1 (some "lawpage") "Algemene wet bestuursrecht"
    (by decide) (by rfl) rfl |>.1

/-- C10 fails on the code for `max_results = 0` (and likewise any
non-positive bound): the cap `len(results) >= max_results` is checked
only after appending, so a parsable result page yields one entry even
when `max_results = 0`. -/
theorem searchLaws_max_results_zero_counterexample :
    searchLaws
      (fun _ _ _ => ReqResult.ok "resultpage")
      (fun _ => Node.mk "html" [] none ""
        [Node.mk "div" ["searchresult"] none ""
          [Node.mk "a" [] (some "/BWBR0001840") "Grondwet" []]])
      (fun _ => Except.error "no direct parse")
      "grondwet" 0
      = [{ title := "Grondwet", bwb_id := "BWBR0001840",
           url := BASE_URL ++ "/BWBR0001840" }] ∧
    ¬ (searchLaws
      (fun _ _ _ => ReqResult.ok "resultpage")
      (fun _ => Node.mk "html" [] none ""
        [Node.mk "div" ["searchresult"] none ""
          [Node.mk "a" [] (some "/BWBR0001840") "Grondwet" []]])
      (fun _ => Except.error "no direct parse")
      "grondwet" 0).length ≤ 0 := by
  constructor
  · decide
  · decide

/-- C10 (amended): `search_laws` never propagates an exception — a
raised full-text request is absorbed into an empty result list; for a
positive `max_results` the result list has at most `max_results`
entries (for `max_results = 0` the after-append cap still admits one
entry); and every returned entry is well-formed, its `bwb_id` being
`BWBR` followed by a nonempty digit run. -/
theorem searchLaws_error_absorption (net : Net) (soupOf : String → Node)
    (parseMeta : Option String → Except String String) (query : String)
    (maxResults : Nat) :
    (∀ e, matchesBWBRFull query = false →
      (makeRequest (net SEARCH_URL [("zoeken_term", query)])).result = .raised e →
      searchLaws net soupOf parseMeta query maxResults = []) ∧
    (1 ≤ maxResults →
      (searchLaws net soupOf parseMeta query maxResults).length ≤ maxResults) ∧
    (∀ r ∈ searchLaws net soupOf parseMeta query maxResults, wellFormedBwbId r) := by
  refine ⟨?_, ?_, ?_⟩
  · intro e hq hraise
    simp [searchLaws, hq, fullTextSearch, hraise]
  · intro hpos
    unfold searchLaws
    split
    · split
      · split
        · simpa using hpos
        · exact fullTextSearch_length_le _ _ _ _ hpos
      · exact fullTextSearch_length_le _ _ _ _ hpos
    · exact fullTextSearch_length_le _ _ _ _ hpos
  · intro r hr
    unfold searchLaws at hr
    split at hr
    · next hq =>
      split at hr
      · split at hr
        · next nameOfLaw _ =>
          obtain rfl := List.mem_singleton.mp hr
          exact matchesBWBRFull_shape hq
        · exact fullTextSearch_wellFormed _ _ _ _ r hr
      · exact fullTextSearch_wellFormed _ _ _ _ r hr
    · exact fullTextSearch_wellFormed _ _ _ _ r hr

/-- Witness for C10 (amended): a failing search request with a
non-identifier query yields the empty list. -/
theorem searchLaws_error_absorption_witness :
    matchesBWBRFull "grondwet" = false ∧
    (makeRequest ((fun _ _ _ => ReqResult.err "down" : Net) SEARCH_URL
      [("zoeken_term", "grondwet")])).result = .raised "down" ∧
    searchLaws (fun _ _ _ => ReqResult.err "down")
      (fun _ => Node.mk "html" [] none "" [])
      (fun _ => Except.error "no direct parse") "grondwet" 10 = [] := by
  refine ⟨by decide, by decide, ?_⟩
  exact (searchLaws_error_absorption (fun _ _ _ => ReqResult.err "down")
    (fun _ => Node.mk "html" [] none "" [])
    (fun _ => Except.error "no direct parse") "grondwet" 10).1 "down"
    (by decide) (by decide)

/-! ## The three literal date renderings (spec side)

The claim about `_parse_dutch_date` quantifies over calendar dates;
the renderings below produce the three literal formats of the spec:
`DD month-name YYYY`, `DD-MM-YYYY` and `YYYY-MM-DD`. -/

/-- The decimal digit character for `n mod 10`. -/
def digitChar (n : Nat) : Char :=
  Char.ofNat (48 + n % 10)

/-- A two-digit zero-padded rendering (`"05"`, `"24"`). -/
def pad2 (n : Nat) : List Char :=
  [digitChar (n / 10), digitChar n]

/-- A four-digit rendering of a year. -/
def year4 (n : Nat) : List Char :=
  [digitChar (n / 1000), digitChar (n / 100), digitChar (n / 10), digitChar n]

/-- The Dutch name of month `m` (1-based), per `dutch_months`. -/
def dutchMonthName : Nat → String
  | 1 => "januari" | 2 => "februari" | 3 => "maart" | 4 => "april"
  | 5 => "mei" | 6 => "juni" | 7 => "juli" | 8 => "augustus"
  | 9 => "september" | 10 => "oktober" | 11 => "november" | 12 => "december"
  | _ => ""

/-- The character-class facts the date scanners test on a digit. -/
abbrev dchar (c : Char) : Prop :=
  c.isDigit = true ∧ c.isWhitespace = false ∧ c.isAlpha = false ∧ (c == '-') = false

/-- The character-class facts the date scanners test on a letter of a
(lowercase) month name. -/
abbrev achar (c : Char) : Prop :=
  c.isAlpha = true ∧ c.isWhitespace = false ∧ c.isDigit = false ∧ (c == '-') = false

theorem digitChar_dchar (n : Nat) : dchar (digitChar n) := by
  unfold digitChar
  have h : n % 10 < 10 := Nat.mod_lt _ (by omega)
  revert h
  generalize n % 10 = k
  intro h
  interval_cases k <;> exact ⟨by decide, by decide, by decide, by decide⟩

theorem takeWhile_append_all {p : Char → Bool} {l₁ l₂ : List Char}
    (h : ∀ c ∈ l₁, p c = true) :
    (l₁ ++ l₂).takeWhile p = l₁ ++ l₂.takeWhile p := by
  induction l₁ with
  | nil => simp
  | cons c cs ih =>
    simp [List.takeWhile_cons, h c (List.mem_cons_self c cs),
      ih (fun x hx => h x (List.mem_cons_of_mem c hx))]

theorem dropWhile_append_all {p : Char → Bool} {l₁ l₂ : List Char}
    (h : ∀ c ∈ l₁, p c = true) :
    (l₁ ++ l₂).dropWhile p = l₂.dropWhile p := by
  induction l₁ with
  | nil => simp
  | cons c cs ih =>
    simp [List.dropWhile_cons, h c (List.mem_cons_self c cs),
      ih (fun x hx => h x (List.mem_cons_of_mem c hx))]

/-- The scanner-level core of C7: for any digit characters and any
nonempty all-letter month word that `dutch_months` maps to the
two-digit month `mm1 mm2`, the three literal renderings of the date
all parse to the same normalized `YYYY-MM-DD` string (the formats are
tried in source order; the first matching one wins). -/
theorem parseDutchDate_three_formats (d1 d2 y1 y2 y3 y4 mm1 mm2 : Char) (nm : List Char)
    (hd1 : dchar d1) (hd2 : dchar d2) (hy1 : dchar y1) (hy2 : dchar y2)
    (hy3 : dchar y3) (hy4 : dchar y4) (hm1 : dchar mm1) (hm2 : dchar mm2)
    (hne : nm ≠ []) (hall : ∀ c ∈ nm, achar c)
    (hlu : dutch_months.lookup (pyLower (String.mk nm)) = some (String.mk [mm1, mm2])) :
    parseDutchDate (String.mk (d1 :: d2 :: ' ' :: (nm ++ ' ' :: [y1, y2, y3, y4])))
      = some (String.mk [y1, y2, y3, y4, '-', mm1, mm2, '-', d1, d2]) ∧
    parseDutchDate (String.mk [d1, d2, '-', mm1, mm2, '-', y1, y2, y3, y4])
      = some (String.mk [y1, y2, y3, y4, '-', mm1, mm2, '-', d1, d2]) ∧
    parseDutchDate (String.mk [y1, y2, y3, y4, '-', mm1, mm2, '-', d1, d2])
      = some (String.mk [y1, y2, y3, y4, '-', mm1, mm2, '-', d1, d2]) := by
  refine ⟨?_, ?_, ?_⟩
  · obtain ⟨c0, cs, rfl⟩ := List.exists_cons_of_ne_nil hne
    have hc0 := hall c0 (List.mem_cons_self c0 cs)
    have hcs : ∀ c ∈ cs, Char.isAlpha c = true :=
      fun c hc => (hall c (List.mem_cons_of_mem c0 hc)).1
    simp [parseDutchDate, searchDutchDate, matchDutchAt, matchMonthYear, takeClass1,
      takeWhile_append_all hcs, dropWhile_append_all hcs, zfill2,
      hd1.1, hd1.2.1, hd2.1, hd2.2.1,
      hy1.1, hy1.2.1, hy2.1, hy2.2.1, hy3.1, hy3.2.1, hy4.1, hy4.2.1,
      hc0.1, hc0.2.1, hlu]
  · simp [parseDutchDate, searchDutchDate, matchDutchAt, matchMonthYear, takeClass1,
      searchDMY, matchDMYAt,
      hd1.1, hd1.2.1, hd1.2.2.1, hd1.2.2.2,
      hd2.1, hd2.2.1, hd2.2.2.1, hd2.2.2.2,
      hy1.1, hy1.2.1, hy1.2.2.1, hy1.2.2.2,
      hy2.1, hy2.2.1, hy2.2.2.1, hy2.2.2.2,
      hy3.1, hy3.2.1, hy3.2.2.1, hy3.2.2.2,
      hy4.1, hy4.2.1, hy4.2.2.1, hy4.2.2.2,
      hm1.1, hm1.2.1, hm1.2.2.1, hm1.2.2.2,
      hm2.1, hm2.2.1, hm2.2.2.1, hm2.2.2.2]
  · simp [parseDutchDate, searchDutchDate, matchDutchAt, matchMonthYear, takeClass1,
      searchDMY, matchDMYAt, searchYMD, matchYMDAt,
      hd1.1, hd1.2.1, hd1.2.2.1, hd1.2.2.2,
      hd2.1, hd2.2.1, hd2.2.2.1, hd2.2.2.2,
      hy1.1, hy1.2.1, hy1.2.2.1, hy1.2.2.2,
      hy2.1, hy2.2.1, hy2.2.2.1, hy2.2.2.2,
      hy3.1, hy3.2.1, hy3.2.2.1, hy3.2.2.2,
      hy4.1, hy4.2.1, hy4.2.2.1, hy4.2.2.2,
      hm1.1, hm1.2.1, hm1.2.2.1, hm1.2.2.2,
      hm2.1, hm2.2.1, hm2.2.2.1, hm2.2.2.2]

/-- C7: for every calendar date, the three literal renderings —
`DD month-name YYYY` with the Dutch month name, `DD-MM-YYYY`, and
`YYYY-MM-DD` — all parse through `_parse_dutch_date` to the same
normalized `YYYY-MM-DD` string (the three formats are attempted in
that order, the first successful one winning). -/
theorem date_format_roundtrip (d m y : Nat)
    (hd : 1 ≤ d ∧ d ≤ 31) (hm : 1 ≤ m ∧ m ≤ 12) (hy : 1000 ≤ y ∧ y ≤ 9999) :
    parseDutchDate (String.mk (pad2 d ++ ' ' :: ((dutchMonthName m).data ++ ' ' :: year4 y)))
      = some (String.mk (year4 y ++ '-' :: (pad2 m ++ '-' :: pad2 d))) ∧
    parseDutchDate (String.mk (pad2 d ++ '-' :: (pad2 m ++ '-' :: year4 y)))
      = some (String.mk (year4 y ++ '-' :: (pad2 m ++ '-' :: pad2 d))) ∧
    parseDutchDate (String.mk (year4 y ++ '-' :: (pad2 m ++ '-' :: pad2 d)))
      = some (String.mk (year4 y ++ '-' :: (pad2 m ++ '-' :: pad2 d))) := by
  obtain ⟨hm1, hm2⟩ := hm
  have h := parseDutchDate_three_formats (digitChar (d / 10)) (digitChar d)
    (digitChar (y / 1000)) (digitChar (y / 100)) (digitChar (y / 10)) (digitChar y)
    (digitChar (m / 10)) (digitChar m) (dutchMonthName m).data
    (digitChar_dchar _) (digitChar_dchar _) (digitChar_dchar _) (digitChar_dchar _)
    (digitChar_dchar _) (digitChar_dchar _) (digitChar_dchar _) (digitChar_dchar _)
    (by interval_cases m <;> decide)
    (by interval_cases m <;> decide)
    (by interval_cases m <;> decide)
  simpa [pad2, year4] using h

/-- Witness for C7: `"24 maart 1815"`, `"24-03-1815"` and
`"1815-03-24"` all parse to `"1815-03-24"`. -/
theorem date_format_roundtrip_witness :
    ((1 : Nat) ≤ 24 ∧ (24 : Nat) ≤ 31) ∧ ((1 : Nat) ≤ 3 ∧ (3 : Nat) ≤ 12) ∧
    ((1000 : Nat) ≤ 1815 ∧ (1815 : Nat) ≤ 9999) ∧
    parseDutchDate "24 maart 1815" = some "1815-03-24" ∧
    parseDutchDate "24-03-1815" = some "1815-03-24" ∧
    parseDutchDate "1815-03-24" = some "1815-03-24" := by
  refine ⟨⟨by omega, by omega⟩, ⟨by omega, by omega⟩, ⟨by omega, by omega⟩, ?_, ?_, ?_⟩
  all_goals
    rw [show ("1815-03-24" : String)
      = String.mk (year4 1815 ++ '-' :: (pad2 3 ++ '-' :: pad2 24)) from by decide]
  · rw [show ("24 maart 1815" : String)
      = String.mk (pad2 24 ++ ' ' :: ((dutchMonthName 3).data ++ ' ' :: year4 1815)) from by decide]
    exact (date_format_roundtrip 24 3 1815 ⟨by omega, by omega⟩ ⟨by omega, by omega⟩
      ⟨by omega, by omega⟩).1
  · rw [show ("24-03-1815" : String)
      = String.mk (pad2 24 ++ '-' :: (pad2 3 ++ '-' :: year4 1815)) from by decide]
    exact (date_format_roundtrip 24 3 1815 ⟨by omega, by omega⟩ ⟨by omega, by omega⟩
      ⟨by omega, by omega⟩).2.1
  · exact (date_format_roundtrip 24 3 1815 ⟨by omega, by omega⟩ ⟨by omega, by omega⟩
      ⟨by omega, by omega⟩).2.2

end DutchLawMCP
